import Mathlib

/-!
Shallow embedding of the provider aggregation pipeline of
`src/proxybroker/providers.py` (ProxyBroker), together with proofs of the
spec's testable properties about it: result-set merging and dedup, protocol
tagging, the retry loop, error absorption in the single-page fetch, the
per-page extraction pipeline, the discovery pipes of `Proxylist_me` and
`Gatherproxy_com`, the cipher-substitution port decoders of `Xseo_in` and
`Spys_ru`, and the per-provider concurrency gate.
-/

set_option maxRecDepth 4000

namespace ProxyBroker

/-! ## Result set and the `Provider.proxies` setter

Python keeps `self._proxies` as a `set` of `(host, port, proto)` tuples.
We model it as a `Finset` of such triples; `proto` (a tuple of protocol name
strings in Python) becomes a `List String`. -/

abbrev ResultSet := Finset (String × String × List String)

/-- Embedding of the `Provider.proxies` setter
(`providers.py` lines 68-71):

    new = [(host, port, self.proto) for host, port in new if port]
    self._proxies.update(new)

A pair with a falsy (empty) port is dropped; every kept pair is tagged with
the provider's configured `proto`. -/
def proxiesSetter (proto : List String) (s : ResultSet) (new : List (String × String)) : ResultSet :=
  s ∪ ((new.filter fun hp => hp.2 ≠ "").map fun hp => (hp.1, hp.2, proto)).toFinset

/-- A whole run's merging: the result set starts empty
(`self._proxies = set()` in `Provider.__init__`) and each page's extraction
batch is merged through the setter. -/
def runMerge (proto : List String) (batches : List (List (String × String))) : ResultSet :=
  batches.foldl (proxiesSetter proto) ∅

lemma mem_proxiesSetter {proto : List String} {s : ResultSet}
    {new : List (String × String)} {r : String × String × List String} :
    r ∈ proxiesSetter proto s new ↔
      r ∈ s ∨ ∃ hp ∈ new, hp.2 ≠ "" ∧ r = (hp.1, hp.2, proto) := by
  simp only [proxiesSetter, Finset.mem_union, List.mem_toFinset, List.mem_map,
    List.mem_filter]
  constructor
  · rintro (h | ⟨hp, ⟨hmem, hne⟩, rfl⟩)
    · exact Or.inl h
    · exact Or.inr ⟨hp, hmem, by simpa using hne, rfl⟩
  · rintro (h | ⟨hp, hmem, hne, rfl⟩)
    · exact Or.inl h
    · exact Or.inr ⟨hp, ⟨hmem, by simpa using hne⟩, rfl⟩

/-- C1 helper: the setter only ever adds records carrying the
provider's configured protocol list. -/
lemma proxiesSetter_proto_invariant {proto : List String} {s : ResultSet}
    {new : List (String × String)}
    (hs : ∀ r ∈ s, r.2.2 = proto) :
    ∀ r ∈ proxiesSetter proto s new, r.2.2 = proto := by
  intro r hr
  rcases mem_proxiesSetter.mp hr with h | ⟨hp, _, _, rfl⟩
  · exact hs r h
  · rfl

lemma runMerge_proto_aux (proto : List String) :
    ∀ (batches : List (List (String × String))) (s : ResultSet),
      (∀ r ∈ s, r.2.2 = proto) →
      ∀ r ∈ batches.foldl (proxiesSetter proto) s, r.2.2 = proto := by
  intro batches
  induction batches with
  | nil => intro s hs; simpa using hs
  | cons b bs ih =>
      intro s hs
      exact ih _ (proxiesSetter_proto_invariant hs)

lemma proxiesSetter_port_invariant {proto : List String} {s : ResultSet}
    {new : List (String × String)}
    (hs : ∀ r ∈ s, r.2.1 ≠ "") :
    ∀ r ∈ proxiesSetter proto s new, r.2.1 ≠ "" := by
  intro r hr
  rcases mem_proxiesSetter.mp hr with h | ⟨hp, _, hne, rfl⟩
  · exact hs r h
  · exact hne

lemma runMerge_port_aux (proto : List String) :
    ∀ (batches : List (List (String × String))) (s : ResultSet),
      (∀ r ∈ s, r.2.1 ≠ "") →
      ∀ r ∈ batches.foldl (proxiesSetter proto) s, r.2.1 ≠ "" := by
  intro batches
  induction batches with
  | nil => intro s hs; simpa using hs
  | cons b bs ih =>
      intro s hs
      exact ih _ (proxiesSetter_port_invariant hs)

/-- C1. Merging is a set union keyed by the full record; within one provider
run every insert carries the same `proto`, so on the `(host, port)` key the
merge is dedup-ing, idempotent and commutative, and re-inserting an existing
key is a no-op. -/
theorem proxies_merge_dedup (proto : List String) (s : ResultSet)
    (new1 new2 : List (String × String)) (h p : String)
    (h1 : (h, p) ∈ new1) (h2 : (h, p) ∈ new2) (hp : p ≠ "") :
    ((proxiesSetter proto (proxiesSetter proto ∅ new1) new2).filter
        fun r => r.1 = h ∧ r.2.1 = p).card = 1
    ∧ ((h, p, proto) ∈ s → proxiesSetter proto s [(h, p)] = s)
    ∧ proxiesSetter proto (proxiesSetter proto s new1) new1 =
        proxiesSetter proto s new1
    ∧ proxiesSetter proto (proxiesSetter proto s new1) new2 =
        proxiesSetter proto (proxiesSetter proto s new2) new1 := by
  refine ⟨?_, ?_, ?_, ?_⟩
  · have hfil : ((proxiesSetter proto (proxiesSetter proto ∅ new1) new2).filter
        fun r => r.1 = h ∧ r.2.1 = p) = {(h, p, proto)} := by
      apply Finset.ext
      intro r
      simp only [Finset.mem_filter, Finset.mem_singleton]
      constructor
      · rintro ⟨hr, hh, hpp⟩
        rcases mem_proxiesSetter.mp hr with hr1 | ⟨hp2, _, _, rfl⟩
        · rcases mem_proxiesSetter.mp hr1 with hr0 | ⟨hp1, _, _, rfl⟩
          · simp at hr0
          · simp_all [Prod.ext_iff]
        · simp_all [Prod.ext_iff]
      · rintro rfl
        refine ⟨?_, rfl, rfl⟩
        exact mem_proxiesSetter.mpr (Or.inr ⟨(h, p), h2, hp, rfl⟩)
    rw [hfil]
    simp
  · intro hmem
    apply Finset.ext
    intro r
    rw [mem_proxiesSetter]
    constructor
    · rintro (hr | ⟨hp2, hmem2, hne2, rfl⟩)
      · exact hr
      · simp only [List.mem_singleton] at hmem2
        subst hmem2
        exact hmem
    · exact Or.inl
  · simp only [proxiesSetter, Finset.union_assoc, Finset.union_self]
  · simp only [proxiesSetter, Finset.union_assoc]
    rw [Finset.union_comm
      (((new1.filter fun hp => hp.2 ≠ "").map fun hp => (hp.1, hp.2, proto)).toFinset)]

/-- Closed witness for the dedup theorem at a concrete overlapping input. -/
theorem proxies_merge_dedup_witness :
    ((proxiesSetter ["HTTP"] (proxiesSetter ["HTTP"] ∅
          [("1.2.3.4", "80"), ("5.6.7.8", "81")])
        [("1.2.3.4", "80")]).filter
        fun r => r.1 = "1.2.3.4" ∧ r.2.1 = "80").card = 1 :=
  (proxies_merge_dedup ["HTTP"] ∅ [("1.2.3.4", "80"), ("5.6.7.8", "81")]
    [("1.2.3.4", "80")] "1.2.3.4" "80" (by decide) (by decide) (by decide)).1

/-- C2. Every record in the set produced by a run carries exactly the
provider's configured protocol list (`self.proto`), and this invariant is
preserved by every individual merge. -/
theorem proxies_protocol_tagging (proto : List String)
    (batches : List (List (String × String))) (s : ResultSet)
    (new : List (String × String))
    (hs : ∀ r ∈ s, r.2.2 = proto) :
    (∀ r ∈ proxiesSetter proto s new, r.2.2 = proto)
    ∧ ∀ r ∈ runMerge proto batches, r.2.2 = proto := by
  refine ⟨proxiesSetter_proto_invariant hs, ?_⟩
  exact runMerge_proto_aux proto batches ∅ (by simp)

/-- Closed witness for protocol tagging at a concrete run and record. -/
theorem proxies_protocol_tagging_witness :
    ("1.2.3.4", "80", ["SOCKS5"]) ∈
        runMerge ["SOCKS5"] [[("1.2.3.4", "80")], [("5.6.7.8", "1080")]]
    ∧ (("1.2.3.4", "80", ["SOCKS5"]) :
        String × String × List String).2.2 = ["SOCKS5"] :=
  ⟨by decide,
   (proxies_protocol_tagging ["SOCKS5"]
      [[("1.2.3.4", "80")], [("5.6.7.8", "1080")]] ∅ [] (by simp)).2
     ("1.2.3.4", "80", ["SOCKS5"]) (by decide)⟩

/-- C10. A pair with an empty (falsy) port is silently dropped by the setter,
and consequently no record with an empty port ever appears in a run's result
set. -/
theorem proxies_empty_port_dropped (proto : List String)
    (batches : List (List (String × String))) (s : ResultSet) (host : String) :
    proxiesSetter proto s [(host, "")] = s
    ∧ ∀ r ∈ runMerge proto batches, r.2.1 ≠ "" := by
  constructor
  · apply Finset.ext
    intro r
    rw [mem_proxiesSetter]
    constructor
    · rintro (hr | ⟨hp, hmem, hne, rfl⟩)
      · exact hr
      · simp only [List.mem_singleton] at hmem
        subst hmem
        simp at hne
    · exact Or.inl
  · exact runMerge_port_aux proto batches ∅ (by simp)

/-- Closed witness: an extraction batch containing an empty-port pair
contributes only its good pair. -/
theorem proxies_empty_port_dropped_witness :
    proxiesSetter ["HTTP"] ∅ [("9.9.9.9", "")] = ∅
    ∧ ("1.2.3.4", "80", ["HTTP"]) ∈
        runMerge ["HTTP"] [[("9.9.9.9", ""), ("1.2.3.4", "80")]]
    ∧ (("1.2.3.4", "80", ["HTTP"]) : String × String × List String).2.1 ≠ "" :=
  ⟨(proxies_empty_port_dropped ["HTTP"] [] ∅ "9.9.9.9").1,
   by decide,
   (proxies_empty_port_dropped ["HTTP"] [[("9.9.9.9", ""), ("1.2.3.4", "80")]]
      ∅ "9.9.9.9").2 ("1.2.3.4", "80", ["HTTP"]) (by decide)⟩

/-! ## Log entries

Both `Provider._get` and `Provider._find_on_page` report conditions through
the module logger; we record the emitted entries with their level. -/

inductive LogEntry where
  | debug (msg : String)
  | error (msg : String)
deriving DecidableEq

def LogEntry.isDebug : LogEntry → Bool
  | .debug _ => true
  | .error _ => false

/-! ## `Provider._get`: one fetch attempt (lines 136-160)

The outcome of the underlying `aiohttp` request is one of: a decoded
response with a status code, or one of the exception classes named in the
`except` clause. `page = await resp.text()` runs before the status check, so
a decode failure is its own outcome. -/

inductive FetchOutcome where
  | success (status : Nat) (text : String)
  | unicodeDecodeError
  | timeoutError
  | clientOSError
  | clientResponseError
  | serverDisconnectedError
deriving DecidableEq

def FetchOutcome.errorRepr : FetchOutcome → String
  | .success status _ => "BadStatusError(Status: " ++ toString status ++ ")"
  | .unicodeDecodeError => "UnicodeDecodeError()"
  | .timeoutError => "TimeoutError()"
  | .clientOSError => "ClientOSError()"
  | .clientResponseError => "ClientResponseError()"
  | .serverDisconnectedError => "ServerDisconnectedError()"

/-- Embedding of `Provider._get`.  On a 200 response the decoded text is
returned; a non-200 response first logs the page dump at debug level, then
raises `BadStatusError`, which the `except` clause catches, resetting `page`
to `''` and logging at debug level.  Every listed exception outcome yields
`('' , one debug log)`; the function is total, so no condition propagates to
the caller. -/
def provider_get_once (url : String) : FetchOutcome → String × List LogEntry
  | .success status text =>
      if status ≠ 200 then
        ("", [.debug ("url: " ++ url ++ " page:" ++ text),
              .debug (url ++ " is failed. Error: " ++
                (FetchOutcome.success status text).errorRepr ++ ";")])
      else (text, [])
  | o => ("", [.debug (url ++ " is failed. Error: " ++ o.errorRepr ++ ";")])

/-- C4. Each failure outcome of a single-page fetch — non-200 status,
decode failure, timeout, OS error/reset, response error, server disconnect —
returns empty text with only debug-level logging, and (the embedding being a
total function) never propagates an exception to the caller. -/
theorem provider_get_once_absorbs (url : String) :
    (∀ status text, status ≠ 200 →
        (provider_get_once url (.success status text)).1 = ""
        ∧ (provider_get_once url (.success status text)).2 ≠ []
        ∧ ∀ l ∈ (provider_get_once url (.success status text)).2, l.isDebug)
    ∧ ∀ o : FetchOutcome, (∀ status text, o ≠ .success status text) →
        (provider_get_once url o).1 = ""
        ∧ (provider_get_once url o).2 ≠ []
        ∧ ∀ l ∈ (provider_get_once url o).2, l.isDebug := by
  constructor
  · intro status text hne
    simp [provider_get_once, hne, LogEntry.isDebug]
  · intro o ho
    cases o with
    | success status text => exact absurd rfl (ho status text)
    | unicodeDecodeError => simp [provider_get_once, LogEntry.isDebug]
    | timeoutError => simp [provider_get_once, LogEntry.isDebug]
    | clientOSError => simp [provider_get_once, LogEntry.isDebug]
    | clientResponseError => simp [provider_get_once, LogEntry.isDebug]
    | serverDisconnectedError => simp [provider_get_once, LogEntry.isDebug]

/-- Closed witness: a 404 response and a timeout both come back as empty
text with a debug log. -/
theorem provider_get_once_absorbs_witness :
    (provider_get_once "http://x/" (.success 404 "oops")).1 = ""
    ∧ (provider_get_once "http://x/" .timeoutError).1 = "" :=
  ⟨((provider_get_once_absorbs "http://x/").1 404 "oops" (by decide)).1,
   ((provider_get_once_absorbs "http://x/").2 .timeoutError
      (by intro s t h; cases h)).1⟩

/-! ## `Provider.get`: the retry loop (lines 129-134)

    for _ in range(self._max_tries):
        page = await self._get(...)
        if page:
            break
    return page

We model the underlying fetch as a function from the attempt number to the
page text it returns, and additionally count the calls made. -/

/-- `getFrom fetch i rem`: run the remaining `rem` loop iterations starting
at attempt number `i`; returns the final `page` together with the number of
calls performed. -/
def getFrom (fetch : Nat → String) : Nat → Nat → String × Nat
  | _, 0 => ("", 0)
  | i, rem + 1 =>
      let page := fetch i
      if page ≠ "" then (page, 1)
      else if rem = 0 then (page, 1)
      else
        let r := getFrom fetch (i + 1) rem
        (r.1, r.2 + 1)

/-- Embedding of `Provider.get` (`max_tries` loop from attempt 0),
instrumented with the number of underlying `_get` calls. -/
def provider_get (fetch : Nat → String) (maxTries : Nat) : String × Nat :=
  getFrom fetch 0 maxTries

lemma getFrom_first_success (fetch : Nat → String) :
    ∀ (k i rem : Nat), (∀ j, j < k → fetch (i + j) = "") →
      fetch (i + k) ≠ "" → k + 1 ≤ rem →
      getFrom fetch i rem = (fetch (i + k), k + 1) := by
  intro k
  induction k with
  | zero =>
      intro i rem _ hk hrem
      obtain ⟨r, rfl⟩ : ∃ r, rem = r + 1 := ⟨rem - 1, by omega⟩
      simp only [getFrom]
      rw [Nat.add_zero] at hk
      simp [hk]
  | succ k ih =>
      intro i rem hempty hk hrem
      obtain ⟨r, rfl⟩ : ∃ r, rem = r + 1 := ⟨rem - 1, by omega⟩
      have h0 : fetch i = "" := by
        have := hempty 0 (Nat.succ_pos k)
        simpa using this
      have hr : r ≠ 0 := by omega
      simp only [getFrom, h0]
      simp only [ne_eq, not_true_eq_false, if_false, hr, if_neg hr]
      have hrec := ih (i + 1) r
        (fun j hj => by
          have := hempty (j + 1) (by omega)
          simpa [Nat.add_assoc, Nat.add_comm 1 j] using this)
        (by
          have : i + 1 + k = i + (k + 1) := by omega
          rw [this]; exact hk)
        (by omega)
      rw [hrec]
      have : i + 1 + k = i + (k + 1) := by omega
      rw [this]

lemma getFrom_all_empty (fetch : Nat → String) :
    ∀ (rem i : Nat), 1 ≤ rem → (∀ j, j < rem → fetch (i + j) = "") →
      getFrom fetch i rem = ("", rem) := by
  intro rem
  induction rem with
  | zero => intro i h; omega
  | succ r ih =>
      intro i _ hempty
      have h0 : fetch i = "" := by simpa using hempty 0 (Nat.succ_pos r)
      by_cases hr : r = 0
      · subst hr
        simp [getFrom, h0]
      · simp only [getFrom, h0]
        simp only [ne_eq, not_true_eq_false, if_false, if_neg hr]
        rw [ih (i + 1) (by omega)
          (fun j hj => by
            have := hempty (j + 1) (by omega)
            simpa [Nat.add_assoc, Nat.add_comm 1 j] using this)]

/-- C3. The retry loop stops at the first non-empty attempt: if the first
`k` attempts return empty and attempt `k+1` (index `k`) is non-empty with
`k < maxTries`, `Provider.get` returns that text after exactly `k+1` calls;
if all `maxTries` attempts return empty, it makes exactly `maxTries` calls
and returns empty text. -/
theorem provider_get_retry_bound (fetch : Nat → String) (maxTries k : Nat)
    (hmt : 1 ≤ maxTries) :
    ((∀ j, j < k → fetch j = "") → fetch k ≠ "" → k < maxTries →
        provider_get fetch maxTries = (fetch k, k + 1))
    ∧ ((∀ j, j < maxTries → fetch j = "") →
        provider_get fetch maxTries = ("", maxTries)) := by
  constructor
  · intro hempty hk hlt
    have := getFrom_first_success fetch k 0 maxTries
      (fun j hj => by simpa using hempty j hj) (by simpa using hk) (by omega)
    simpa using this
  · intro hempty
    exact getFrom_all_empty fetch maxTries 0 hmt
      (fun j hj => by simpa using hempty j hj)

/-- Closed witness: with a fetch stub empty on attempts 0 and 1 and
non-empty on attempt 2, three tries return the page in exactly 3 calls;
an always-empty stub exhausts all 3 tries. -/
theorem provider_get_retry_bound_witness :
    provider_get (fun j => if j < 2 then "" else "page") 3 = ("page", 3)
    ∧ provider_get (fun _ => "") 3 = ("", 3) :=
  ⟨by
    have := (provider_get_retry_bound (fun j => if j < 2 then "" else "page")
      3 2 (by decide)).1
      (fun j hj => by interval_cases j <;> decide) (by decide) (by decide)
    simpa using this,
   (provider_get_retry_bound (fun _ => "") 3 0 (by decide)).2 (fun j hj => rfl)⟩

/-! ## `Provider._find_on_page` (lines 107-127)

The extraction strategy `find_proxies` may raise; we embed it as an
`Except`-valued function, `.error e` standing for a raised exception with
repr `e`.  The fetched page is passed in directly (the fetch itself is
covered by `provider_get`). -/

/-- Embedding of `Provider._find_on_page` after the page has been fetched:
returns the updated result set and the log entries emitted. -/
def findOnPage (find_proxies : String → Except String (List (String × String)))
    (domain : String) (proto : List String) (s : ResultSet)
    (url page : String) : ResultSet × List LogEntry :=
  if page = "" then (s, [])
  else
    let oldcount := s.card
    match find_proxies page with
    | .error e =>
        (s, [.error ("Error when executing find_proxies.Domain: " ++ domain ++
              "; Error: " ++ e),
             .error ("Got 0 proxies from " ++ url)])
    | .ok received =>
        if received = [] then (s, [.error ("Got 0 proxies from " ++ url)])
        else
          let s2 := proxiesSetter proto s received
          (s2, [.debug (toString (s2.card - oldcount) ++ "(" ++
                toString received.length ++ ") proxies added(received) from " ++
                url)])

/-- C5. If the extraction strategy raises on a non-empty page, the
exception is caught inside `_find_on_page`: the result set is unchanged, the
error is logged (at error level) with the provider's domain, and — the
embedding being total — nothing escapes, so the run continues. -/
theorem find_on_page_catches (find_proxies : String →
      Except String (List (String × String)))
    (domain : String) (proto : List String) (s : ResultSet)
    (url page e : String)
    (hpage : page ≠ "") (herr : find_proxies page = .error e) :
    (findOnPage find_proxies domain proto s url page).1 = s
    ∧ (findOnPage find_proxies domain proto s url page).2 =
        [.error ("Error when executing find_proxies.Domain: " ++ domain ++
            "; Error: " ++ e),
         .error ("Got 0 proxies from " ++ url)] := by
  simp [findOnPage, hpage, herr]

/-- Closed witness: an always-raising extraction strategy leaves a concrete
result set untouched. -/
theorem find_on_page_catches_witness :
    (findOnPage (fun _ => .error "ValueError()") "xseo.in" ["HTTP"]
        {("1.2.3.4", "80", ["HTTP"])} "https://xseo.in/proxylist" "<html>").1 =
      {("1.2.3.4", "80", ["HTTP"])} :=
  (find_on_page_catches (fun _ => .error "ValueError()") "xseo.in" ["HTTP"]
    {("1.2.3.4", "80", ["HTTP"])} "https://xseo.in/proxylist" "<html>"
    "ValueError()" (by decide) rfl).1

/-! ## Discovery pipes deriving a last-page index

`Proxylist_me._pipe` (lines 263-273) and `Gatherproxy_com._pipe`
(lines 308-330) both compute `max([int(n) for n in re.findall(exp, page)])`;
Python's `max` raises `ValueError` on an empty sequence, which we embed as
an `Except`. -/

/-- Python's `max` over a list of ints: raises `ValueError` when empty. -/
def pythonMax : List Nat → Except String Nat
  | [] => .error "ValueError: max() arg is an empty sequence"
  | x :: xs => .ok (xs.foldl Nat.max x)

/-- Decimal value of a digit string, as Python `int` on a `\d+` match. -/
def digitsToNat (ds : List Char) : Nat :=
  ds.foldl (fun acc c => acc * 10 + (c.toNat - '0'.toNat)) 0

/-- `re.findall(r'href="#(\d+)"', page)` mapped through `int`, character by
character.  A match is the literal `href="#`, a maximal non-empty digit run,
then `"`; since no later match can begin inside a match's span (the literal
starts with `h`, which cannot occur in `ref="#<digits>"`), scanning one
character at a time agrees with `findall`'s continue-after-match rule. -/
def findPageIds : List Char → List Nat
  | 'h' :: 'r' :: 'e' :: 'f' :: '=' :: '"' :: '#' :: rest =>
      let ds := rest.takeWhile Char.isDigit
      match rest.drop ds.length with
      | '"' :: _ =>
          if ds.isEmpty then findPageIds rest
          else digitsToNat ds :: findPageIds rest
      | _ => findPageIds rest
  | _ :: rest => findPageIds rest
  | [] => []

/-- One POST request descriptor of `Gatherproxy_com._pipe`:
`{'url': url, 'data': {'Type': t, 'PageIdx': pid}, 'method': method}`. -/
structure GPRequest where
  url : String
  typ : String
  pageIdx : Nat
  method : String
deriving DecidableEq

def gatherproxyUrl : String := "http://www.gatherproxy.com/proxylist/anonymity/"

/-- One iteration of the `for t in ['anonymous', 'elite']` loop of
`Gatherproxy_com._pipe`, acting on the loop variable `urls`:

    page = await self.get(url, data={'Type': t, 'PageIdx': 1}, method=method)
    if not page:
        continue
    lastPageId = max([int(n) for n in re.findall(expNumPages, page)])
    urls = [{'url': url, 'data': {'Type': t, 'PageIdx': pid},
             'method': method} for pid in range(1, lastPageId + 1)]

Note the body *assigns* `urls`, replacing any previous tier's requests
(`continue` alone keeps them). -/
def gatherproxyTierStep (fetch : String → String) (t : String)
    (urls : List GPRequest) : Except String (List GPRequest) :=
  let page := fetch t
  if page = "" then .ok urls
  else
    match pythonMax (findPageIds page.toList) with
    | .error e => .error e
    | .ok lastPageId =>
        .ok ((List.range' 1 lastPageId).map fun pid =>
          ⟨gatherproxyUrl, t, pid, "POST"⟩)

/-- Embedding of `Gatherproxy_com._pipe` up to `_find_on_pages`: the loop
over the two anonymity tiers, unrolled.  `fetch t` is the (retried) page-1
POST response for tier `t`. -/
def gatherproxyPipe (fetch : String → String) :
    Except String (List GPRequest) :=
  match gatherproxyTierStep fetch "anonymous" [] with
  | .error e => .error e
  | .ok urls =>
      match gatherproxyTierStep fetch "elite" urls with
      | .error e => .error e
      | .ok urls => .ok urls

/-- Embedding of `Proxylist_me._pipe` up to `_find_on_pages`.  `page` is the
(retried) response for `https://proxylist.me/`; `findall` stands for
`[int(n) for n in re.findall(exp, page)]` with the source's pattern
`href\s*=\s*['"][^'"]*/?page=(\d+)['"]`, the `re` engine being external
library code.  Note Python's `range(lastId)` enumerates `0..lastId-1`. -/
def proxylistMePipe (findall : String → List Nat) (page : String) :
    Except String (List String) :=
  if page = "" then .ok []
  else
    match pythonMax (findall page) with
    | .error e => .error e
    | .ok lastId =>
        .ok ((List.range lastId).map fun n =>
          "https://proxylist.me/?page=" ++ toString n)

/-- C6. In both last-page-deriving pipes, an empty index fetch yields zero
follow-up requests and no error; a non-empty index page on which the
page-number pattern finds nothing makes `max` of the empty list raise
`ValueError`, which nothing in the pipe guards, so the provider run fails.
(For `Gatherproxy_com` the `elite` tier exhibits it; whatever the
`anonymous` tier returned, the error propagates out of the loop.) -/
theorem discovery_last_page_edge_cases (findall : String → List Nat)
    (page : String) (fetch : String → String)
    (hp : page ≠ "") (hnone : findall page = [])
    (hg : fetch "elite" ≠ "") (hgnone : findPageIds (fetch "elite").toList = []) :
    proxylistMePipe findall "" = .ok []
    ∧ gatherproxyPipe (fun _ => "") = .ok []
    ∧ proxylistMePipe findall page =
        .error "ValueError: max() arg is an empty sequence"
    ∧ gatherproxyPipe fetch =
        .error "ValueError: max() arg is an empty sequence" := by
  refine ⟨rfl, rfl, ?_, ?_⟩
  · simp [proxylistMePipe, hp, hnone, pythonMax]
  · have h1 : findPageIds (fetch "elite").data = [] := hgnone
    have helite : ∀ urls, gatherproxyTierStep fetch "elite" urls =
        .error "ValueError: max() arg is an empty sequence" := by
      intro urls
      simp [gatherproxyTierStep, hg, h1, pythonMax]
    simp only [gatherproxyPipe]
    rcases hanon : gatherproxyTierStep fetch "anonymous" [] with e | urls
    · have he : e = "ValueError: max() arg is an empty sequence" := by
        simp only [gatherproxyTierStep] at hanon
        by_cases ha : fetch "anonymous" = ""
        · simp [ha] at hanon
        · simp only [if_neg ha] at hanon
          rcases hm0 : findPageIds (fetch "anonymous").toList with _ | ⟨x, xs⟩
          · rw [hm0] at hanon
            simpa [pythonMax] using hanon.symm
          · rw [hm0] at hanon
            simp [pythonMax] at hanon
      subst he
      rfl
    · have h2 := helite urls
      change (match gatherproxyTierStep fetch "elite" urls with
        | Except.error e => (Except.error e : Except String (List GPRequest))
        | Except.ok u => Except.ok u) = _
      rw [h2]

/-- Closed witness for the discovery edge cases at concrete pages with no
page-number token. -/
theorem discovery_last_page_edge_cases_witness :
    proxylistMePipe (fun _ => []) "" = .ok []
    ∧ proxylistMePipe (fun _ => []) "<html>no pages</html>" =
        .error "ValueError: max() arg is an empty sequence"
    ∧ gatherproxyPipe (fun _ => "<html>no pages</html>") =
        .error "ValueError: max() arg is an empty sequence" := by
  have h := discovery_last_page_edge_cases (fun _ => [])
    "<html>no pages</html>" (fun _ => "<html>no pages</html>")
    (by decide) rfl (by decide) (by decide)
  exact ⟨h.1, h.2.2.1, h.2.2.2⟩

/-- C8 evaluation. With both tiers' page-1 fetches succeeding (`anonymous`
advertising 2 pages, `elite` 3 pages), `Gatherproxy_com._pipe` produces only
the `elite` requests: the assignment `urls = [...]` inside the tier loop
replaces, rather than extends, the previous tier's request list. -/
theorem gatherproxy_tier_overwrite :
    gatherproxyPipe (fun t =>
        if t = "anonymous" then "href=\"#1\" href=\"#2\""
        else if t = "elite" then "href=\"#1\" href=\"#3\"" else "") =
      .ok [⟨gatherproxyUrl, "elite", 1, "POST"⟩,
           ⟨gatherproxyUrl, "elite", 2, "POST"⟩,
           ⟨gatherproxyUrl, "elite", 3, "POST"⟩]
    ∧ ∀ r ∈ (gatherproxyPipe (fun t =>
        if t = "anonymous" then "href=\"#1\" href=\"#2\""
        else if t = "elite" then "href=\"#1\" href=\"#3\"" else "")).toOption.getD [],
        r.typ = "elite" := by
  constructor
  · rfl
  · decide

/-! ## The per-provider concurrency gate (C9)

`Provider.__init__` creates `self._sem_provider = asyncio.Semaphore(max_conn)`
and `Provider._get` wraps the network call in
`async with self._sem_provider, self._session.request(...)`: the permit is
acquired before the request is issued and released on block exit,
unconditionally — also when the body raises (error/timeout).

We embed the cooperative scheduler as a transition system: each queued page
request acquires a permit (only possible when one is available), is then
in flight, and releases its permit when it finishes with either outcome. -/

inductive Phase where
  | queued
  | inflight
  | finished (ok : Bool)
deriving DecidableEq

def Phase.isInflight : Phase → Bool
  | .inflight => true
  | _ => false

structure GateState where
  avail : Nat
  tasks : List Phase
deriving DecidableEq

/-- Number of requests currently in flight. -/
def inflightCount (s : GateState) : Nat := s.tasks.countP Phase.isInflight

inductive GateStep : GateState → GateState → Prop where
  | acquire (s : GateState) (i n : Nat) :
      s.tasks[i]? = some .queued → s.avail = n + 1 →
      GateStep s ⟨n, s.tasks.set i .inflight⟩
  | release (s : GateState) (i : Nat) (ok : Bool) :
      s.tasks[i]? = some .inflight →
      GateStep s ⟨s.avail + 1, s.tasks.set i (.finished ok)⟩

/-- Reachability from the initial state: `max_conn = c` permits available,
`n` page requests queued, none in flight. -/
inductive GateReach (c n : Nat) : GateState → Prop where
  | init : GateReach c n ⟨c, List.replicate n .queued⟩
  | step {s t : GateState} : GateReach c n s → GateStep s t → GateReach c n t

lemma countP_set_balance (p : Phase → Bool) :
    ∀ (l : List Phase) (i : Nat) (a b : Phase), l[i]? = some a →
      (l.set i b).countP p + (if p a then 1 else 0) =
        l.countP p + (if p b then 1 else 0) := by
  intro l
  induction l with
  | nil => intro i a b h; simp at h
  | cons x xs ih =>
      intro i a b h
      cases i with
      | zero =>
          simp only [List.getElem?_cons_zero, Option.some.injEq] at h
          subst h
          simp only [List.set_cons_zero, List.countP_cons]
          omega
      | succ j =>
          simp only [List.getElem?_cons_succ] at h
          simp only [List.set_cons_succ, List.countP_cons]
          have := ih j a b h
          omega

lemma countP_replicate_queued (n : Nat) :
    (List.replicate n Phase.queued).countP Phase.isInflight = 0 := by
  induction n with
  | zero => rfl
  | succ m ih => simp [List.replicate, List.countP_cons, ih, Phase.isInflight]

lemma gateStep_invariant {c : Nat} {s t : GateState} (hstep : GateStep s t)
    (ih : s.avail + inflightCount s = c) :
    t.avail + inflightCount t = c := by
  cases hstep with
  | acquire i m hi havail =>
      have hb := countP_set_balance Phase.isInflight s.tasks i
        .queued .inflight hi
      simp [Phase.isInflight] at hb
      simp only [inflightCount] at ih ⊢
      omega
  | release i ok hi =>
      have hb := countP_set_balance Phase.isInflight s.tasks i
        .inflight (.finished ok) hi
      simp [Phase.isInflight] at hb
      simp only [inflightCount] at ih ⊢
      omega

lemma gate_invariant {c n : Nat} {s : GateState} (h : GateReach c n s) :
    s.avail + inflightCount s = c := by
  induction h with
  | init => simp [inflightCount, countP_replicate_queued]
  | step hr hstep ih => exact gateStep_invariant hstep ih

/-- C9. In every state reachable from `c` permits and `n` queued requests —
however many requests are queued — at most `c` requests are in flight at
once: acquiring is only possible while a permit is available, and a permit
is released whenever a request finishes, with either outcome. -/
theorem gate_concurrency_bound (c n : Nat) (s : GateState)
    (h : GateReach c n s) : inflightCount s ≤ c := by
  have := gate_invariant h
  omega

/-- Closed witness: with 1 permit and 2 queued requests, the state after one
acquisition is reachable and respects the bound. -/
theorem gate_concurrency_bound_witness :
    inflightCount ⟨0, [Phase.inflight, Phase.queued]⟩ ≤ 1 := by
  apply gate_concurrency_bound 1 2
  have h0 : GateReach 1 2 ⟨1, List.replicate 2 Phase.queued⟩ := GateReach.init
  have hstep : GateStep ⟨1, List.replicate 2 Phase.queued⟩
      ⟨0, [Phase.inflight, Phase.queued]⟩ :=
    GateStep.acquire ⟨1, List.replicate 2 Phase.queued⟩ 0 0 rfl rfl
  exact GateReach.step h0 hstep

/-! ## `Xseo_in.find_proxies` (lines 350-360): letter-to-digit cipher

    expPortOnJS = r'\(""\+(?P<chars>[a-z+]+)\)'
    expCharNum = r'\b(?P<char>[a-z])=(?P<num>\d);'
    self.charEqNum = {char: i for char, i in re.findall(expCharNum, page)}
    page = re.sub(expPortOnJS, self.char_js_port_to_num, page)

`char_js_port_to_num` joins `charEqNum[ch]` over the matched group, skipping
literal `+`; a missing key raises `KeyError`, embedded as `none`. -/

def isWordChar (c : Char) : Bool := c.isAlphanum || c = '_'

def isLowerAz (c : Char) : Bool := 'a' ≤ c && c ≤ 'z'

def isLowerAzPlus (c : Char) : Bool := isLowerAz c || c = '+'

/-- `re.findall(expCharNum, page)`: each match is a single `[a-z]` letter at
a word boundary, `=`, one digit, `;`.  No match can start inside the 4-span
of another (`=`, the digit and `;` all fail `\b[a-z]`), so the
character-by-character scan agrees with `findall`. `prev` is the previous
character, for the `\b` test. -/
def xseoParseTable (prev : Option Char) : List Char → List (Char × Char)
  | [] => []
  | c :: rest =>
      let boundary := match prev with
        | none => true
        | some p => !isWordChar p
      match rest with
      | '=' :: d :: ';' :: _ =>
          if boundary && isLowerAz c && d.isDigit then
            (c, d) :: xseoParseTable (some c) rest
          else xseoParseTable (some c) rest
      | _ => xseoParseTable (some c) rest

/-- Lookup in a Python dict built by a comprehension: later bindings
overwrite earlier ones, so take the last matching pair. -/
def dictLookup (tbl : List (Char × Char)) (k : Char) : Option Char :=
  (tbl.reverse.find? fun p => p.1 == k).map fun p => p.2

/-- `Xseo_in.char_js_port_to_num`:
`''.join([self.charEqNum[ch] for ch in chars if ch != '+'])`. -/
def char_js_port_to_num (tbl : List (Char × Char)) :
    List Char → Option (List Char)
  | [] => some []
  | ch :: rest =>
      if ch = '+' then char_js_port_to_num tbl rest
      else do
        let d ← dictLookup tbl ch
        let tail ← char_js_port_to_num tbl rest
        some (d :: tail)

/-- `re.sub(expPortOnJS, self.char_js_port_to_num, page)`: each occurrence
of `(""` `+` nonempty `[a-z+]` run `)` is replaced by the joined digits.
`fuel` bounds the recursion (one unit per character examined); it is set to
the page length plus one, which each path respects. -/
def xseoSub (tbl : List (Char × Char)) : Nat → List Char → Option (List Char)
  | 0, l => some l
  | _ + 1, [] => some []
  | fuel + 1, c :: rest =>
      match c, rest with
      | '(', '"' :: '"' :: '+' :: rest2 =>
          let run := rest2.takeWhile isLowerAzPlus
          match run, rest2.drop run.length with
          | _ :: _, ')' :: rest4 => do
              let digits ← char_js_port_to_num tbl run
              let tail ← xseoSub tbl fuel rest4
              some (digits ++ tail)
          | _, _ => do
              let tail ← xseoSub tbl fuel rest
              some (c :: tail)
      | _, _ => do
          let tail ← xseoSub tbl fuel rest
          some (c :: tail)

/-- `Xseo_in.find_proxies` up to the final `_find_proxies` re-scan: build
the letter→digit table from the page, then rewrite every concatenation
expression to its decoded digit string.  `none` models a raised exception
(a `KeyError` on an undefined symbol). -/
def xseoRewrite (page : String) : Option String :=
  let cs := page.toList
  let tbl := xseoParseTable none cs
  (xseoSub tbl (cs.length + 1) cs).map fun l => String.mk l

/-! ## `Spys_ru.find_proxies` (lines 418-444): XOR-keyed cipher

    expPortOnJS = r'(?P<js_port_code>(?:\+\([a-z0-9^+]+\))+)'
    expCharNum = r'[>;]{1}(?P<char>[a-z\d]{4,})=(?P<num>[a-z\d\^]+)'
    res = re.findall(expCharNum, page)
    for char, num in res:
        if '^' in num:
            digit, tochar = num.split('^')
            num = int(digit) ^ self.charEqNum[tochar]
        self.charEqNum[char] = int(num)
    page = re.sub(expPortOnJS, self.char_js_port_to_num, page)
-/

def isLowerAzDigit (c : Char) : Bool := isLowerAz c || c.isDigit

def isSpysNumChar (c : Char) : Bool := isLowerAzDigit c || c = '^'

def isSpysGroupChar (c : Char) : Bool := isLowerAzDigit c || c = '^' || c = '+'

/-- `re.findall(expCharNum, page)`: `>` or `;`, a maximal `[a-z\d]` run of
length at least 4, `=`, then a maximal non-empty `[a-z\d^]` run.  A new
match begins at a `>`/`;`, which cannot occur inside a match span, so the
character-by-character scan agrees with `findall` (the terminating `;` of
one binding is itself the start of the next). -/
def spysFindTableTokens : List Char → List (List Char × List Char)
  | [] => []
  | c :: rest =>
      if c = '>' || c = ';' then
        let run := rest.takeWhile isLowerAzDigit
        if run.length ≥ 4 then
          match rest.drop run.length with
          | '=' :: rest3 =>
              let numRun := rest3.takeWhile isSpysNumChar
              if numRun.isEmpty then spysFindTableTokens rest
              else (run, numRun) :: spysFindTableTokens rest
          | _ => spysFindTableTokens rest
        else spysFindTableTokens rest
      else spysFindTableTokens rest

/-- Python `int` on a decimal token: `none` (a `ValueError`) unless the
token is a non-empty digit string. -/
def pythonInt (ds : List Char) : Option Nat :=
  if ds.isEmpty || !ds.all Char.isDigit then none
  else some (digitsToNat ds)

/-- Last-binding-wins lookup in the accumulated `charEqNum` dict;
`none` models `KeyError`. -/
def spysLookup (tbl : List (String × Nat)) (k : String) : Option Nat :=
  (tbl.reverse.find? fun p => p.1 == k).map fun p => p.2

/-- The `for char, num in res:` resolution loop over the table tokens, in
top-to-bottom order: a plain binding is `int(num)`; a binding `digit^tochar`
resolves `tochar` against the bindings made so far and XORs.  `none` models
a raised `ValueError`/`KeyError`. -/
def spysBuildTable (acc : List (String × Nat)) :
    List (List Char × List Char) → Option (List (String × Nat))
  | [] => some acc
  | (ch, num) :: rest =>
      if num.contains '^' then
        -- digit, tochar = num.split('^')  (exactly two parts, else ValueError)
        match num.splitOn '^' with
        | [digit, tochar] => do
            let d ← pythonInt digit
            let t ← spysLookup acc (String.mk tochar)
            spysBuildTable (acc ++ [(String.mk ch, d ^^^ t)]) rest
        | _ => none
      else do
        let v ← pythonInt num
        spysBuildTable (acc ++ [(String.mk ch, v)]) rest

/-- `str.strip('()')`: drop `(` and `)` from both ends. -/
def stripParens (l : List Char) : List Char :=
  ((l.dropWhile fun c => c = '(' || c = ')').reverse.dropWhile
      fun c => c = '(' || c = ')').reverse

/-- `Spys_ru.char_js_port_to_num` on the split pieces: each piece
`(var1^var2)` contributes `str(charEqNum[var1] ^ charEqNum[var2])`, digits
concatenated in piece order. -/
def spysGroupsToNum (tbl : List (String × Nat)) :
    List (List Char) → Option (List Char)
  | [] => some []
  | g :: rest =>
      match (stripParens g).splitOn '^' with
      | [v1, v2] => do
          let a ← spysLookup tbl (String.mk v1)
          let b ← spysLookup tbl (String.mk v2)
          let tail ← spysGroupsToNum tbl rest
          some ((Nat.repr (a ^^^ b)).toList ++ tail)
      | _ => none

/-- `Spys_ru.char_js_port_to_num`: `chars = matchobj.groups()[0].split('+')`
then the loop over `chars[1:]` (the first piece is the empty string, the
whole match starting with `+`). -/
def spys_char_js_port_to_num (tbl : List (String × Nat)) (chars : List Char) :
    Option (List Char) :=
  spysGroupsToNum tbl ((chars.splitOn '+').drop 1)

/-- One unit `\+\([a-z0-9^+]+\)` of the port expression: `+(`, a maximal
non-empty `[a-z0-9^+]` run, `)`. -/
def spysUnit : List Char → Option (List Char × List Char)
  | '+' :: '(' :: rest =>
      let run := rest.takeWhile isSpysGroupChar
      match run, rest.drop run.length with
      | _ :: _, ')' :: rest2 => some ('+' :: '(' :: (run ++ [')']), rest2)
      | _, _ => none
  | _ => none

/-- The `(?:...)+` repetition: as many consecutive units as possible,
greedily, their text concatenated.  `fuel` bounds the recursion. -/
def spysChain : Nat → List Char → Option (List Char × List Char)
  | 0, _ => none
  | fuel + 1, l =>
      match spysUnit l with
      | none => none
      | some (u, rest) =>
          match spysChain fuel rest with
          | some (u2, rest2) => some (u ++ u2, rest2)
          | none => some (u, rest)

/-- `re.sub(expPortOnJS, self.char_js_port_to_num, page)`: every maximal
chain of `+(...)` units is replaced by its decoded digit string.  A chain
can only start at a `+`, and no `+` occurs inside a unit ahead of a chain
start, so the character-by-character scan agrees with `findall`-style
non-overlapping substitution. -/
def spysSub (tbl : List (String × Nat)) : Nat → List Char → Option (List Char)
  | 0, l => some l
  | _ + 1, [] => some []
  | fuel + 1, c :: rest =>
      match spysChain (fuel + 1) (c :: rest) with
      | some (chain, rest2) => do
          let num ← spys_char_js_port_to_num tbl chain
          let tail ← spysSub tbl fuel rest2
          some (num ++ tail)
      | none => do
          let tail ← spysSub tbl fuel rest
          some (c :: tail)

/-- `Spys_ru.find_proxies` up to the final `_find_proxies` re-scan: collect
the symbol-table bindings, resolve them top to bottom (starting from the
instance's current `charEqNum`, `tbl0`), then rewrite every port
expression. -/
def spysRewrite (tbl0 : List (String × Nat)) (page : String) : Option String := do
  let cs := page.toList
  let tbl ← spysBuildTable tbl0 (spysFindTableTokens cs)
  let out ← spysSub tbl (cs.length + 1) cs
  some (String.mk out)

/-- C7. Cipher decode correctness on the spec's instances: with the symbol
table `a=7;b=2;c=9;` the Xseo scheme rewrites `(""+a+b+c)` to the digit
string `729`; with XOR-scheme bindings `abcd=5` and `efgh=3` the group
`(abcd^efgh)` contributes the single digit `6 = 5 XOR 3`, group digits are
concatenated in group order, and a binding `wxyz=7^abcd` resolves against
the earlier `abcd` binding (top-to-bottom order), giving
`7 XOR 5 = 2` and hence digits `61` for `+(abcd^efgh)+(efgh^wxyz)`. -/
theorem cipher_decode_correct :
    xseoRewrite "a=7;b=2;c=9;1.2.3.4(\"\"+a+b+c)x" =
      some "a=7;b=2;c=9;1.2.3.4729x"
    ∧ spysRewrite [] ";abcd=5;efgh=3>x+(abcd^efgh)y" =
      some ";abcd=5;efgh=3>x6y"
    ∧ spysRewrite [] ";abcd=5;efgh=3;wxyz=7^abcd>1.2.3.4 +(abcd^efgh)+(efgh^wxyz)" =
      some ";abcd=5;efgh=3;wxyz=7^abcd>1.2.3.4 61" :=
  ⟨rfl, rfl, rfl⟩

end ProxyBroker
